import Mathlib

/-!
Shallow embedding of the WebSocket quote-analysis classifier
(`test_ws_analysis.py`): the capture loop with its bounded per-symbol
buffers, the four analyzers (LP source, price pattern, timestamp gap,
spread consistency), the verdict aggregator, and the session control flow
with its exit codes.  Python floats are modelled as rationals; `round(x, 6)`
is modelled as exact rounding of the rational to 6 decimal places.
-/

/-- One price-update message, as stored in the capture buffers.
Fields mirror the JSON schema `{"symbol", "bid", "ask", "timestamp", "lp"}`;
`lp` is optional in the schema, hence `Option String`. -/
structure Tick where
  symbol : String
  bid : ℚ
  ask : ℚ
  timestamp : ℚ
  lp : Option String
deriving DecidableEq, Repr

/-- `tick.get('lp', 'UNKNOWN')`. -/
def tickLp (t : Tick) : String := t.lp.getD "UNKNOWN"

/-- Polarity of one evidence record.  In the source an evidence record is a
string containing exactly one of the markers: `✅` (supports real) or
`⚠️`/`❌` (supports simulated); the aggregator counts records by marker. -/
inductive Polarity where
  | supportsReal
  | supportsSimulated
deriving DecidableEq, Repr

/-- The four possible final verdicts of `generate_verdict`. -/
inductive Verdict where
  | simulated
  | real
  | likelySimulated
  | inconclusive
deriving DecidableEq, Repr

/-- `round(q, 6)`: round to 6 decimal places (the source rounds price
differences and spreads this way before counting distinct values).
Rounding to nearest, ties upward; exact half-way ties at the 7th decimal
digit are the only place this differs from Python's ties-to-even. -/
def round6 (q : ℚ) : ℚ := (round (q * 1000000) : ℚ) / 1000000

/-- Successive differences of a list, in order: `[b - a, c - b, ...]`,
`n - 1` values for `n` entries (used for bid changes and timestamp gaps). -/
def diffs : List ℚ → List ℚ
  | a :: b :: rest => (b - a) :: diffs (b :: rest)
  | _ => []

/-- Distinct symbols of a tick list in first-occurrence order
(`defaultdict` insertion order in `by_symbol`). -/
def symbolsOf (ticks : List Tick) : List String :=
  (ticks.map Tick.symbol).dedup

/-- `analyze_lp`: the set of distinct source labels observed across the
analyzed ticks (`analysis['lp_sources']`), in first-occurrence order. -/
def lpSources (ticks : List Tick) : List String :=
  (ticks.map tickLp).dedup

/-- `analyze_lp` evidence: one record per distinct label, `SIMULATED` ↦
supports-simulated, `YOFX` ↦ supports-real, any other label ↦ nothing. -/
def analyzeLpEvidence (ticks : List Tick) : List Polarity :=
  (lpSources ticks).filterMap fun lp =>
    if lp = "SIMULATED" then some .supportsSimulated
    else if lp = "YOFX" then some .supportsReal
    else none

/-- The body of the `analyze_price_patterns` per-symbol loop: `none` when the
symbol has fewer than 3 ticks, otherwise the polarity decided by the
regularity ratio (distinct rounded bid differences / total differences),
threshold `< 0.5`. -/
def priceEvidenceFor (ticks : List Tick) (sym : String) : Option Polarity :=
  let symbolTicks := ticks.filter (fun t => t.symbol = sym)
  if symbolTicks.length < 3 then none
  else
    let priceChanges := diffs (symbolTicks.map Tick.bid)
    let uniqueChanges := ((priceChanges.map round6).dedup).length
    let regularityRatio : ℚ :=
      if priceChanges ≠ [] then (uniqueChanges : ℚ) / (priceChanges.length : ℚ) else 0
    if regularityRatio < 1/2 then some .supportsSimulated
    else some .supportsReal

/-- `analyze_price_patterns`: per-symbol evidence in symbol
first-occurrence order. -/
def analyzePriceEvidence (ticks : List Tick) : List Polarity :=
  (symbolsOf ticks).filterMap (priceEvidenceFor ticks)

/-- The `gaps` variable of `analyze_timestamps`: pool every tick's
timestamp across symbols, sort ascending, take consecutive differences. -/
def tsGaps (ticks : List Tick) : List ℚ :=
  diffs ((ticks.map Tick.timestamp).insertionSort (· ≤ ·))

/-- `analyze_timestamps`: no evidence when there are no gaps, otherwise
exactly one record: supports-simulated iff the gap regularity ratio is
`< 0.3` AND the mean gap is `< 1`. -/
def analyzeTimestampEvidence (ticks : List Tick) : List Polarity :=
  let gaps := tsGaps ticks
  if gaps = [] then []
  else
    let avgGap := gaps.sum / (gaps.length : ℚ)
    let gapRegularity : ℚ := (gaps.dedup.length : ℚ) / (gaps.length : ℚ)
    if gapRegularity < 3/10 ∧ avgGap < 1 then [.supportsSimulated]
    else [.supportsReal]

/-- The body of the `analyze_spread` per-symbol loop (no minimum-count
guard): spread = ask − bid rounded to 6 decimals, consistency =
1 − distinct/total, supports-simulated iff consistency `> 0.95` (strict). -/
def spreadEvidenceFor (ticks : List Tick) (sym : String) : Polarity :=
  let symbolTicks := ticks.filter (fun t => t.symbol = sym)
  let spreads := symbolTicks.map (fun t => round6 (t.ask - t.bid))
  let uniqueSpreads := spreads.dedup.length
  let spreadConsistency : ℚ := 1 - (uniqueSpreads : ℚ) / (spreads.length : ℚ)
  if spreadConsistency > 19/20 then .supportsSimulated
  else .supportsReal

/-- `analyze_spread`: one record per symbol, in first-occurrence order. -/
def analyzeSpreadEvidence (ticks : List Tick) : List Polarity :=
  (symbolsOf ticks).map (spreadEvidenceFor ticks)

/-- `analysis['evidence']` after the four analyzers ran, in execution order:
LP source, price patterns, timestamps, spread. -/
def fullEvidence (ticks : List Tick) : List Polarity :=
  analyzeLpEvidence ticks ++ analyzePriceEvidence ticks ++
    analyzeTimestampEvidence ticks ++ analyzeSpreadEvidence ticks

/-- `simulated_indicators`: evidence records carrying a `⚠️` or `❌` marker
are exactly the supports-simulated ones. -/
def simulatedIndicators (evidence : List Polarity) : ℕ :=
  (evidence.filter (· = .supportsSimulated)).length

/-- `real_indicators`: evidence records carrying a `✅` marker are exactly
the supports-real ones. -/
def realIndicators (evidence : List Polarity) : ℕ :=
  (evidence.filter (· = .supportsReal)).length

/-- `generate_verdict`, as a function of the observed label set and the
evidence records: count simulated-marked and real-marked records, then
four ordered rules with first match winning. -/
def generateVerdict (lpLabels : List String) (evidence : List Polarity) : Verdict :=
  if "SIMULATED" ∈ lpLabels then .simulated
  else if "YOFX" ∈ lpLabels ∧ realIndicators evidence > simulatedIndicators evidence then .real
  else if simulatedIndicators evidence > realIndicators evidence then .likelySimulated
  else .inconclusive

/-- The classification pipeline run on a captured tick list: the analyzers
populate `lp_sources` and `evidence`, then `generate_verdict` reads both. -/
def runVerdict (ticks : List Tick) : Verdict :=
  generateVerdict (lpSources ticks) (fullEvidence ticks)

/-- `CAPTURE_COUNT = 20`: the per-symbol buffer capacity. -/
def CAPTURE_COUNT : ℕ := 20

/-- Capture-session state: `captured_ticks` (a dict in insertion order of
symbols), `total_tick_count`, and `analysis['symbols']` (a set, kept here
as a deduplicated list in insertion order). -/
structure CaptureState where
  buffers : List (String × List Tick)
  total : ℕ
  symbols : List String
deriving DecidableEq, Repr

/-- The empty state at session start. -/
def initState : CaptureState := ⟨[], 0, []⟩

/-- Look a symbol's buffer up; a symbol with no entry has captured nothing
(`defaultdict(list)`). -/
def lookupSym : List (String × List Tick) → String → List Tick
  | [], _ => []
  | (k, l) :: rest, sym => if k = sym then l else lookupSym rest sym

/-- Adding a symbol to the observed-symbol set (`set.add`): append it only
when it is new. -/
def addSymbol (syms : List String) (sym : String) : List String :=
  if sym ∈ syms then syms else syms ++ [sym]

/-- `if len(captured_ticks[symbol]) < CAPTURE_COUNT: append(tick)`: the
tick enters its symbol's buffer only below capacity; accessing the
`defaultdict` creates the entry for a new symbol. -/
def updateBuffers : List (String × List Tick) → String → Tick → List (String × List Tick)
  | [], sym, t => [(sym, [t])]
  | (k, l) :: rest, sym, t =>
    if k = sym then (k, if l.length < CAPTURE_COUNT then l ++ [t] else l) :: rest
    else (k, l) :: updateBuffers rest sym t

/-- Processing one accepted tick message (the `tick.get('type') == 'tick'`
branch): increment the global counter, record the symbol, and append to the
buffer only below capacity. -/
def stepTick (s : CaptureState) (t : Tick) : CaptureState :=
  { buffers := updateBuffers s.buffers t.symbol t
    total := s.total + 1
    symbols := addSymbol s.symbols t.symbol }

/-- The early-exit test after storing a tick: at least `min(3, #symbols)`
symbols have a full buffer and the global count reached the target. -/
def breakCond (s : CaptureState) : Bool :=
  decide (min 3 s.symbols.length ≤
      (s.buffers.filter (fun p => CAPTURE_COUNT ≤ p.2.length)).length ∧
    CAPTURE_COUNT ≤ s.total)

/-- Capture run over a sequence of accepted ticks: fold the loop body. -/
def runCapture (ticks : List Tick) : CaptureState :=
  ticks.foldl stepTick initState

/-- Flattening a buffer table: concatenate the per-symbol buffers in
symbol insertion order. -/
def flattenB (bs : List (String × List Tick)) : List Tick :=
  (bs.map Prod.snd).flatten

/-- `all_ticks`: the buffers flattened in symbol insertion order. -/
def flattenBuffers (s : CaptureState) : List Tick :=
  flattenB s.buffers

/-- Result of parsing one inbound frame, as the receive loop sees it:
`malformed` is a JSON decode error; `nonTick` is a well-formed object whose
`type` is not `"tick"` (silently ignored); `tickMsg` is an accepted tick
with all the fields the loop reads; `badTick` is valid JSON with
`type == "tick"` but no `"symbol"` key, so reading it raises a `KeyError`
after the counter was already incremented. -/
inductive RawMsg where
  | malformed
  | nonTick
  | tickMsg (t : Tick)
  | badTick
deriving DecidableEq, Repr

/-- One observable event of the receive loop: a parsed frame, a per-read
inactivity timeout (non-fatal, loop continues), the overall deadline test
at the top of an iteration firing, the connection raising mid-receive, or a
user interrupt. -/
inductive Event where
  | recv (m : RawMsg)
  | timeout
  | deadline
  | disconnect
  | interrupt
deriving DecidableEq, Repr

/-- How the receive loop ended: the trace ran out while the loop was still
waiting (the session deadline eventually stops it the same way), the
early-exit condition fired, the deadline fired, an unhandled exception hit
the generic connection handler, or the user interrupted. -/
inductive LoopExit where
  | ranOut
  | broke
  | deadlineHit
  | connError
  | interrupted
deriving DecidableEq, Repr

/-- The receive loop over an event trace: timeouts and malformed or
non-tick frames are skipped; accepted ticks update the state and may fire
the early-exit test; a `badTick` increments the counter then raises out of
the per-message handlers; a disconnect raises; the deadline breaks. -/
def runLoop : CaptureState → List Event → CaptureState × LoopExit
  | s, [] => (s, .ranOut)
  | s, .deadline :: _ => (s, .deadlineHit)
  | s, .disconnect :: _ => (s, .connError)
  | s, .interrupt :: _ => (s, .interrupted)
  | s, .timeout :: es => runLoop s es
  | s, .recv .malformed :: es => runLoop s es
  | s, .recv .nonTick :: es => runLoop s es
  | s, .recv .badTick :: _ => ({ s with total := s.total + 1 }, .connError)
  | s, .recv (.tickMsg t) :: es =>
    let s' := stepTick s t
    if breakCond s' then (s', .broke) else runLoop s' es

/-- Outcome of one whole session.  Only `completed` carries analyzer
output: on every other path the script exits before any analyzer runs. -/
inductive SessionOutcome where
  | connFail
  | interrupted
  | emptyCapture
  | completed (verdict : Verdict) (evidence : List Polarity)
deriving DecidableEq, Repr

/-- Process exit code per outcome: `sys.exit(1)` in the connection handler
and the empty-capture check, `sys.exit(0)` on `KeyboardInterrupt`, and a
normal return (code 0) after a verdict is printed. -/
def exitCodeOf : SessionOutcome → ℕ
  | .connFail => 1
  | .interrupted => 0
  | .emptyCapture => 1
  | .completed _ _ => 0

/-- One full session: a failed connect exits via the connection handler;
otherwise the receive loop runs; a connection error or interrupt ends the
process before analysis; an empty flattened capture exits before the
analyzers; otherwise the four analyzers and `generate_verdict` run. -/
def runSession (connectOk : Bool) (events : List Event) : SessionOutcome :=
  if !connectOk then .connFail
  else
    match runLoop initState events with
    | (_, .connError) => .connFail
    | (_, .interrupted) => .interrupted
    | (s, _) =>
      let allTicks := flattenBuffers s
      if allTicks.isEmpty then .emptyCapture
      else .completed (runVerdict allTicks) (fullEvidence allTicks)

/-- The `regularity_ratio` variable of `analyze_price_patterns` for one
symbol: distinct rounded bid differences over total differences. -/
def priceRatio (ticks : List Tick) (sym : String) : ℚ :=
  let priceChanges := diffs (((ticks.filter (fun t => t.symbol = sym)).map Tick.bid))
  ((priceChanges.map round6).dedup.length : ℚ) / (priceChanges.length : ℚ)

/-- The `spread_consistency` variable of `analyze_spread` for one symbol:
one minus distinct rounded spreads over total ticks. -/
def spreadConsistency (ticks : List Tick) (sym : String) : ℚ :=
  let spreads := (ticks.filter (fun t => t.symbol = sym)).map
    (fun t => round6 (t.ask - t.bid))
  1 - (spreads.dedup.length : ℚ) / (spreads.length : ℚ)

/-- Four ticks whose bid rises by the constant step 0.0001
(1.1000, 1.1001, 1.1002, 1.1003), the spec's price-pattern example. -/
def constantStepTicks : List Tick :=
  [⟨"EURUSD", 11/10, 111/100, 0, some "YOFX"⟩,
   ⟨"EURUSD", 11001/10000, 111/100, 1, some "YOFX"⟩,
   ⟨"EURUSD", 5501/5000, 111/100, 2, some "YOFX"⟩,
   ⟨"EURUSD", 11003/10000, 111/100, 3, some "YOFX"⟩]

/-- Ten ticks all with spread ask − bid = 0.0002, the spec's
spread-consistency example. -/
def constantSpreadTicks : List Tick :=
  [⟨"GBPUSD", 1, 5001/5000, 0, some "YOFX"⟩, ⟨"GBPUSD", 1, 5001/5000, 1, some "YOFX"⟩,
   ⟨"GBPUSD", 1, 5001/5000, 2, some "YOFX"⟩, ⟨"GBPUSD", 1, 5001/5000, 3, some "YOFX"⟩,
   ⟨"GBPUSD", 1, 5001/5000, 4, some "YOFX"⟩, ⟨"GBPUSD", 1, 5001/5000, 5, some "YOFX"⟩,
   ⟨"GBPUSD", 1, 5001/5000, 6, some "YOFX"⟩, ⟨"GBPUSD", 1, 5001/5000, 7, some "YOFX"⟩,
   ⟨"GBPUSD", 1, 5001/5000, 8, some "YOFX"⟩, ⟨"GBPUSD", 1, 5001/5000, 9, some "YOFX"⟩]

/-- Five ticks, over two symbols, with pooled timestamps 0,1,2,3,4: gaps
[1, 1, 1, 1], the spec's timestamp-gap example. -/
def uniformGapTicks : List Tick :=
  [⟨"EURUSD", 1, 2, 0, some "YOFX"⟩, ⟨"GBPUSD", 1, 2, 1, some "YOFX"⟩,
   ⟨"EURUSD", 1, 2, 2, some "YOFX"⟩, ⟨"GBPUSD", 1, 2, 3, some "YOFX"⟩,
   ⟨"EURUSD", 1, 2, 4, some "YOFX"⟩]

/-- Twenty `EURUSD` ticks filling one buffer, a concrete capture run used
to exercise the capacity behaviour. -/
def fullBufferTicks : List Tick :=
  (List.range 20).map fun i => ⟨"EURUSD", 1, 2, (i : ℚ), some "YOFX"⟩

/-- A 21st tick for the already-full symbol, labelled `SIMULATED`. -/
def overflowTick : Tick := ⟨"EURUSD", 5, 6, 30, some "SIMULATED"⟩

/-! ## General lemmas about the embedding -/

theorem mem_lpSources_iff (ticks : List Tick) (l : String) :
    l ∈ lpSources ticks ↔ l ∈ ticks.map tickLp := by
  simp [lpSources, List.mem_dedup]

@[simp]
theorem flattenB_nil : flattenB [] = [] := rfl

@[simp]
theorem flattenB_cons (k : String) (l : List Tick) (bs : List (String × List Tick)) :
    flattenB ((k, l) :: bs) = l ++ flattenB bs := by
  simp [flattenB]

theorem lookupSym_updateBuffers_self (bs : List (String × List Tick)) (sym : String) (t : Tick) :
    lookupSym (updateBuffers bs sym t) sym =
      if (lookupSym bs sym).length < CAPTURE_COUNT then lookupSym bs sym ++ [t]
      else lookupSym bs sym := by
  induction bs with
  | nil =>
    simp [updateBuffers, lookupSym, CAPTURE_COUNT]
  | cons p rest ih =>
    obtain ⟨k, l⟩ := p
    by_cases hk : k = sym
    · subst hk
      simp [updateBuffers, lookupSym]
    · simp [updateBuffers, lookupSym, hk, ih]

theorem lookupSym_updateBuffers_ne (bs : List (String × List Tick)) (sym sym' : String)
    (t : Tick) (h : sym' ≠ sym) :
    lookupSym (updateBuffers bs sym t) sym' = lookupSym bs sym' := by
  have h2 : sym ≠ sym' := Ne.symm h
  induction bs with
  | nil => simp [updateBuffers, lookupSym, h2]
  | cons p rest ih =>
    obtain ⟨k, l⟩ := p
    by_cases hk : k = sym
    · subst hk
      simp [updateBuffers, lookupSym, h2]
    · simp [updateBuffers, lookupSym, hk, ih]

theorem updateBuffers_of_full (bs : List (String × List Tick)) (sym : String) (t : Tick)
    (h : CAPTURE_COUNT ≤ (lookupSym bs sym).length) :
    updateBuffers bs sym t = bs := by
  induction bs with
  | nil => simp [lookupSym, CAPTURE_COUNT] at h
  | cons p rest ih =>
    obtain ⟨k, l⟩ := p
    by_cases hk : k = sym
    · subst hk
      simp only [lookupSym, if_true, eq_self_iff_true] at h
      have hlen : ¬ l.length < CAPTURE_COUNT := by omega
      simp [updateBuffers, hlen]
    · simp only [lookupSym, if_neg hk] at h
      simp [updateBuffers, hk, ih h]

theorem lookupSym_foldl_stepTick (ts : List Tick) (s : CaptureState) (sym : String) :
    lookupSym (ts.foldl stepTick s).buffers sym =
      lookupSym s.buffers sym ++
        (ts.filter (fun t => t.symbol = sym)).take
          (CAPTURE_COUNT - (lookupSym s.buffers sym).length) := by
  induction ts generalizing s with
  | nil => simp
  | cons t ts ih =>
    rw [List.foldl_cons]
    by_cases hsym : t.symbol = sym
    · subst hsym
      by_cases hlen : (lookupSym s.buffers t.symbol).length < CAPTURE_COUNT
      · have h1 : lookupSym (stepTick s t).buffers t.symbol =
            lookupSym s.buffers t.symbol ++ [t] := by
          simp only [stepTick]
          rw [lookupSym_updateBuffers_self, if_pos hlen]
        have hn : CAPTURE_COUNT - (lookupSym s.buffers t.symbol).length =
            (CAPTURE_COUNT - (lookupSym s.buffers t.symbol).length - 1) + 1 := by
          omega
        rw [ih, h1, List.filter_cons_of_pos (by simp), hn, List.take_succ_cons]
        simp only [List.length_append, List.length_singleton]
        have hm : CAPTURE_COUNT - ((lookupSym s.buffers t.symbol).length + 1) =
            CAPTURE_COUNT - (lookupSym s.buffers t.symbol).length - 1 := by omega
        rw [hm, List.append_assoc, List.singleton_append]
      · have h1 : lookupSym (stepTick s t).buffers t.symbol = lookupSym s.buffers t.symbol := by
          simp only [stepTick]
          rw [lookupSym_updateBuffers_self, if_neg hlen]
        have h0 : CAPTURE_COUNT - (lookupSym s.buffers t.symbol).length = 0 := by omega
        rw [ih, h1, List.filter_cons_of_pos (by simp), h0]
        simp
    · have h1 : lookupSym (stepTick s t).buffers sym = lookupSym s.buffers sym := by
        simp only [stepTick]
        exact lookupSym_updateBuffers_ne _ _ _ _ (fun h' => hsym h'.symm)
      rw [ih, h1, List.filter_cons_of_neg (by simpa using hsym)]

theorem bufferOf_runCapture (ts : List Tick) (sym : String) :
    lookupSym (runCapture ts).buffers sym =
      (ts.filter (fun t => t.symbol = sym)).take CAPTURE_COUNT := by
  have h := lookupSym_foldl_stepTick ts initState sym
  simpa [runCapture, initState, lookupSym] using h

theorem mem_flattenB_updateBuffers (bs : List (String × List Tick)) (sym : String)
    (t u : Tick) (h : u ∈ flattenB (updateBuffers bs sym t)) :
    u ∈ flattenB bs ∨ u = t := by
  induction bs with
  | nil =>
    simp [updateBuffers] at h
    exact Or.inr h
  | cons p rest ih =>
    obtain ⟨k, l⟩ := p
    by_cases hk : k = sym
    · subst hk
      by_cases hlen : l.length < CAPTURE_COUNT
      · simp [updateBuffers, hlen] at h ⊢
        tauto
      · simp [updateBuffers, hlen] at h ⊢
        tauto
    · simp [updateBuffers, hk] at h ⊢
      rcases h with h | h
      · tauto
      · rcases ih h with h' | h'
        · tauto
        · exact Or.inr h'

theorem mem_flatten_foldl (ts : List Tick) (s : CaptureState) (u : Tick)
    (h : u ∈ flattenBuffers (ts.foldl stepTick s)) :
    u ∈ flattenBuffers s ∨ u ∈ ts := by
  induction ts generalizing s with
  | nil => exact Or.inl h
  | cons t ts ih =>
    rw [List.foldl_cons] at h
    rcases ih (stepTick s t) h with h' | h'
    · rcases mem_flattenB_updateBuffers _ _ _ _ h' with h'' | h''
      · exact Or.inl h''
      · exact Or.inr (h'' ▸ List.mem_cons_self t ts)
    · exact Or.inr (List.mem_cons_of_mem t h')

theorem flatten_runCapture_subset (ts : List Tick) (u : Tick)
    (h : u ∈ flattenBuffers (runCapture ts)) : u ∈ ts := by
  rcases mem_flatten_foldl ts initState u h with h' | h'
  · simp [flattenBuffers, initState] at h'
  · exact h'

theorem generateVerdict_ne_simulated (labels : List String) (evidence : List Polarity)
    (h : "SIMULATED" ∉ labels) : generateVerdict labels evidence ≠ Verdict.simulated := by
  simp only [generateVerdict, if_neg h]
  split_ifs <;> simp

theorem round6_eq_self (q : ℚ) (m : ℤ) (h : q * 1000000 = (m : ℚ)) : round6 q = q := by
  unfold round6
  rw [h, round_intCast, ← h]
  field_simp

theorem diffs_length (l : List ℚ) : (diffs l).length = l.length - 1 := by
  induction l with
  | nil => simp [diffs]
  | cons a l ih =>
    cases l with
    | nil => simp [diffs]
    | cons b m =>
      simp only [diffs, List.length_cons] at ih ⊢
      omega

theorem tsGaps_length (ticks : List Tick) : (tsGaps ticks).length = ticks.length - 1 := by
  unfold tsGaps
  rw [diffs_length, (List.perm_insertionSort _ _).length_eq, List.length_map]

theorem spreadEvidenceFor_eq (l : List Tick) (s : String) :
    spreadEvidenceFor l s =
      if spreadConsistency l s > 19/20 then Polarity.supportsSimulated
      else Polarity.supportsReal := rfl

theorem spreadConsistency_single (t : Tick) : spreadConsistency [t] t.symbol = 0 := by
  unfold spreadConsistency
  simp [List.dedup_cons_of_not_mem]

theorem spreadEvidenceFor_single (t : Tick) :
    spreadEvidenceFor [t] t.symbol = Polarity.supportsReal := by
  rw [spreadEvidenceFor_eq, spreadConsistency_single]
  norm_num

theorem runLoop_append_malformed (xs : List Event) (s : CaptureState) (ys : List Event) :
    runLoop s (xs ++ Event.recv RawMsg.malformed :: ys) = runLoop s (xs ++ ys) := by
  induction xs generalizing s with
  | nil => simp [runLoop]
  | cons e xs ih =>
    cases e with
    | recv m =>
      cases m with
      | malformed => simpa [runLoop] using ih s
      | nonTick => simpa [runLoop] using ih s
      | badTick => simp [runLoop]
      | tickMsg t =>
        simp only [List.cons_append, runLoop]
        by_cases hb : breakCond (stepTick s t) <;> simp [hb, ih]
    | timeout => simpa [runLoop] using ih s
    | deadline => simp [runLoop]
    | disconnect => simp [runLoop]
    | interrupt => simp [runLoop]

theorem singleTickSession_eq :
    runSession true [Event.recv (RawMsg.tickMsg ⟨"EURUSD", 1, 2, 0, some "YOFX"⟩)] =
      SessionOutcome.completed Verdict.real
        [Polarity.supportsReal, Polarity.supportsReal] := by
  have hsp : spreadEvidenceFor [(⟨"EURUSD", 1, 2, 0, some "YOFX"⟩ : Tick)] "EURUSD" =
      Polarity.supportsReal := spreadEvidenceFor_single ⟨"EURUSD", 1, 2, 0, some "YOFX"⟩
  simp [runSession, runLoop, breakCond, stepTick, updateBuffers, initState, addSymbol,
    CAPTURE_COUNT, flattenBuffers, flattenB, runVerdict, fullEvidence, analyzeLpEvidence,
    lpSources, tickLp, analyzePriceEvidence, priceEvidenceFor, symbolsOf,
    analyzeTimestampEvidence, tsGaps, diffs, List.insertionSort, List.orderedInsert,
    analyzeSpreadEvidence, hsp, generateVerdict, simulatedIndicators, realIndicators]

/-! ## Claim theorems -/

/-- C1: whenever some captured tick carries the source label `SIMULATED`,
the observed-label set contains it and the verdict is `Simulated`, no
matter what evidence the analyzers produced. -/
theorem simulated_label_forces_simulated_verdict
    (ticks : List Tick) (h : "SIMULATED" ∈ ticks.map tickLp) :
    runVerdict ticks = Verdict.simulated ∧
    ∀ evidence : List Polarity,
      generateVerdict (lpSources ticks) evidence = Verdict.simulated := by
  have hmem : "SIMULATED" ∈ lpSources ticks := (mem_lpSources_iff ticks _).mpr h
  refine ⟨?_, fun evidence => ?_⟩ <;>
    simp [runVerdict, generateVerdict, hmem]

/-- C1 witness: a single tick labelled `SIMULATED` yields the `Simulated`
verdict. -/
theorem simulated_label_forces_simulated_verdict_witness :
    runVerdict [⟨"EURUSD", 1, 2, 0, some "SIMULATED"⟩] = Verdict.simulated :=
  (simulated_label_forces_simulated_verdict
    [⟨"EURUSD", 1, 2, 0, some "SIMULATED"⟩] (by decide)).1

/-- C2: `generate_verdict` is the four-rule decision table evaluated in
order with first match winning, with strict `>` in rules 2 and 3, so equal
indicator counts (without the simulated label) give `Inconclusive`. -/
theorem generate_verdict_decision_table (labels : List String) (evidence : List Polarity) :
    ("SIMULATED" ∈ labels → generateVerdict labels evidence = Verdict.simulated) ∧
    ("SIMULATED" ∉ labels → "YOFX" ∈ labels →
      realIndicators evidence > simulatedIndicators evidence →
      generateVerdict labels evidence = Verdict.real) ∧
    ("SIMULATED" ∉ labels →
      ¬("YOFX" ∈ labels ∧ realIndicators evidence > simulatedIndicators evidence) →
      simulatedIndicators evidence > realIndicators evidence →
      generateVerdict labels evidence = Verdict.likelySimulated) ∧
    ("SIMULATED" ∉ labels →
      ¬("YOFX" ∈ labels ∧ realIndicators evidence > simulatedIndicators evidence) →
      ¬(simulatedIndicators evidence > realIndicators evidence) →
      generateVerdict labels evidence = Verdict.inconclusive) ∧
    ("SIMULATED" ∉ labels → simulatedIndicators evidence = realIndicators evidence →
      generateVerdict labels evidence = Verdict.inconclusive) := by
  refine ⟨fun h1 => ?_, fun h1 h2 h3 => ?_, fun h1 h2 h3 => ?_, fun h1 h2 h3 => ?_,
    fun h1 h2 => ?_⟩
  · simp [generateVerdict, h1]
  · simp [generateVerdict, h1, h2, h3]
  · simp only [generateVerdict, if_neg h1, if_neg h2, if_pos h3]
  · simp only [generateVerdict, if_neg h1, if_neg h2, if_neg h3]
  · have hr : ¬("YOFX" ∈ labels ∧ realIndicators evidence > simulatedIndicators evidence) := by
      rintro ⟨-, hgt⟩; omega
    have hs : ¬(simulatedIndicators evidence > realIndicators evidence) := by omega
    simp only [generateVerdict, if_neg h1, if_neg hr, if_neg hs]

/-- C3: a symbol's buffer never exceeds `CAPTURE_COUNT = 20` ticks, whatever
the arrival sequence; a tick arriving at capacity leaves every buffer
unchanged (dropped, nothing replaced) but still increments the global
received counter and still records its symbol in the observed-symbol set. -/
theorem capture_buffer_capacity (ts : List Tick) (t : Tick) (sym : String) :
    (lookupSym (runCapture ts).buffers sym).length ≤ CAPTURE_COUNT ∧
    (CAPTURE_COUNT ≤ (lookupSym (runCapture ts).buffers t.symbol).length →
      (stepTick (runCapture ts) t).buffers = (runCapture ts).buffers) ∧
    (stepTick (runCapture ts) t).total = (runCapture ts).total + 1 ∧
    t.symbol ∈ (stepTick (runCapture ts) t).symbols := by
  refine ⟨?_, fun h => ?_, rfl, ?_⟩
  · rw [bufferOf_runCapture]
    exact List.length_take_le _ _
  · exact updateBuffers_of_full _ _ _ h
  · by_cases hmem : t.symbol ∈ (runCapture ts).symbols <;>
      simp [stepTick, addSymbol, hmem]

/-- C3 witness: with the `EURUSD` buffer full, the 21st tick is dropped, the
counter still advances, and the cap holds. -/
theorem capture_buffer_capacity_witness :
    (lookupSym (runCapture fullBufferTicks).buffers "EURUSD").length ≤ CAPTURE_COUNT ∧
    (stepTick (runCapture fullBufferTicks) overflowTick).buffers =
      (runCapture fullBufferTicks).buffers ∧
    (stepTick (runCapture fullBufferTicks) overflowTick).total =
      (runCapture fullBufferTicks).total + 1 :=
  ⟨(capture_buffer_capacity fullBufferTicks overflowTick "EURUSD").1,
    (capture_buffer_capacity fullBufferTicks overflowTick "EURUSD").2.1 (by decide),
    (capture_buffer_capacity fullBufferTicks overflowTick "EURUSD").2.2.1⟩

/-- C9: runs whose capture buffers coincide produce identical evidence,
identical observed-label sets, and identical verdicts (the whole analysis
reads only the flattened buffers); every buffer is exactly the first 20
ticks of its symbol, so ticks dropped at capacity cannot influence the
outcome; and a `SIMULATED` label carried only by ticks that are not in any
buffer never yields the `Simulated` verdict. -/
theorem dropped_ticks_cannot_influence_outcome (s1 s2 : List Tick)
    (h : (runCapture s1).buffers = (runCapture s2).buffers) :
    fullEvidence (flattenBuffers (runCapture s1)) =
      fullEvidence (flattenBuffers (runCapture s2)) ∧
    lpSources (flattenBuffers (runCapture s1)) =
      lpSources (flattenBuffers (runCapture s2)) ∧
    runVerdict (flattenBuffers (runCapture s1)) =
      runVerdict (flattenBuffers (runCapture s2)) ∧
    (∀ ts sym, lookupSym (runCapture ts).buffers sym =
      (ts.filter (fun t => t.symbol = sym)).take CAPTURE_COUNT) ∧
    (∀ ts : List Tick,
      (∀ t ∈ ts, tickLp t = "SIMULATED" → t ∉ flattenBuffers (runCapture ts)) →
      runVerdict (flattenBuffers (runCapture ts)) ≠ Verdict.simulated) := by
  have hf : flattenBuffers (runCapture s1) = flattenBuffers (runCapture s2) := by
    simp [flattenBuffers, h]
  refine ⟨by rw [hf], by rw [hf], by rw [hf], bufferOf_runCapture, fun ts hdrop => ?_⟩
  have hnot : "SIMULATED" ∉ lpSources (flattenBuffers (runCapture ts)) := by
    intro hmem
    rw [mem_lpSources_iff] at hmem
    rcases List.mem_map.mp hmem with ⟨u, hu, hlp⟩
    exact hdrop u (flatten_runCapture_subset ts u hu) hlp hu
  exact generateVerdict_ne_simulated _ _ hnot

/-- C9 witness: appending a `SIMULATED`-labelled tick that arrives with its
symbol's buffer already full changes neither the outcome nor lets the
`Simulated` verdict fire. -/
theorem dropped_ticks_cannot_influence_outcome_witness :
    runVerdict (flattenBuffers (runCapture (fullBufferTicks ++ [overflowTick]))) =
      runVerdict (flattenBuffers (runCapture fullBufferTicks)) ∧
    runVerdict (flattenBuffers (runCapture (fullBufferTicks ++ [overflowTick]))) ≠
      Verdict.simulated :=
  ⟨(dropped_ticks_cannot_influence_outcome (fullBufferTicks ++ [overflowTick])
      fullBufferTicks (by decide)).2.2.1,
    (dropped_ticks_cannot_influence_outcome (fullBufferTicks ++ [overflowTick])
      fullBufferTicks (by decide)).2.2.2.2
      (fullBufferTicks ++ [overflowTick]) (by decide)⟩

/-- C4: a frame that does not parse is logged and skipped: the receive loop
continues on the unchanged capture state, and inserting a malformed frame
anywhere into a session's trace changes neither the loop result nor the
session outcome — parse errors never escape the loop or end the session. -/
theorem malformed_message_skipped (s : CaptureState) (ok : Bool) (xs ys : List Event) :
    runLoop s (Event.recv RawMsg.malformed :: ys) = runLoop s ys ∧
    runSession ok (xs ++ Event.recv RawMsg.malformed :: ys) = runSession ok (xs ++ ys) := by
  refine ⟨by simp [runLoop], ?_⟩
  cases ok with
  | false => rfl
  | true => simp only [runSession, runLoop_append_malformed]

/-- C5: the process exit code is 0 whenever a verdict was produced and 0 on
a user interrupt; it is nonzero when the connection fails and nonzero when
the loop ends with an empty capture, in which case the outcome carries no
analyzer output (no analyzer is called). -/
theorem exit_code_policy (ok : Bool) (events : List Event) :
    (∀ v e, runSession ok events = SessionOutcome.completed v e →
      exitCodeOf (runSession ok events) = 0) ∧
    (runSession ok events = SessionOutcome.interrupted →
      exitCodeOf (runSession ok events) = 0) ∧
    (ok = false → runSession ok events = SessionOutcome.connFail) ∧
    (runSession ok events = SessionOutcome.connFail →
      exitCodeOf (runSession ok events) ≠ 0) ∧
    (((runLoop initState events).2 = LoopExit.ranOut ∨
        (runLoop initState events).2 = LoopExit.broke ∨
        (runLoop initState events).2 = LoopExit.deadlineHit) →
      flattenBuffers (runLoop initState events).1 = [] →
      runSession true events = SessionOutcome.emptyCapture ∧
      exitCodeOf (runSession true events) ≠ 0 ∧
      ∀ v e, runSession true events ≠ SessionOutcome.completed v e) := by
  refine ⟨fun v e h => by rw [h]; rfl, fun h => by rw [h]; rfl,
    fun h => by subst h; rfl, fun h => by rw [h]; simp [exitCodeOf],
    fun hex hempty => ?_⟩
  rcases hr : runLoop initState events with ⟨s, ex⟩
  rw [hr] at hex hempty
  dsimp only at hex hempty
  have hsession : runSession true events = SessionOutcome.emptyCapture := by
    cases ex with
    | connError => rcases hex with h | h | h <;> simp at h
    | interrupted => rcases hex with h | h | h <;> simp at h
    | ranOut => simp [runSession, hr, hempty]
    | broke => simp [runSession, hr, hempty]
    | deadlineHit => simp [runSession, hr, hempty]
  exact ⟨hsession, by rw [hsession]; simp [exitCodeOf],
    fun v e => by rw [hsession]; simp⟩

/-- C5 witness: a one-tick session completes with exit code 0; a failed
connect exits nonzero; an event-free session is an empty capture, exits
nonzero, and carries no analyzer output. -/
theorem exit_code_policy_witness :
    exitCodeOf (runSession true
      [Event.recv (RawMsg.tickMsg ⟨"EURUSD", 1, 2, 0, some "YOFX"⟩)]) = 0 ∧
    runSession false [] = SessionOutcome.connFail ∧
    runSession true [] = SessionOutcome.emptyCapture ∧
    exitCodeOf (runSession true []) ≠ 0 :=
  ⟨(exit_code_policy true [Event.recv (RawMsg.tickMsg ⟨"EURUSD", 1, 2, 0, some "YOFX"⟩)]).1
      Verdict.real [Polarity.supportsReal, Polarity.supportsReal] singleTickSession_eq,
    (exit_code_policy false []).2.2.1 rfl,
    ((exit_code_policy true []).2.2.2.2 (Or.inl rfl) rfl).1,
    ((exit_code_policy true []).2.2.2.2 (Or.inl rfl) rfl).2.1⟩

/-- C10: any receive-loop exception other than the per-read timeout or a
JSON decode error — the connection dropping mid-capture, or a tick frame
missing its `symbol` key (after its counter increment) — lands in the one
generic connection handler: connection-failure outcome, exit code 1, no
analyzer output, even with ticks already captured; only the session
deadline proceeds to analysis with the partial capture. -/
theorem generic_connection_error_handler (s : CaptureState) (evs xs : List Event) :
    runLoop s (Event.disconnect :: evs) = (s, LoopExit.connError) ∧
    runLoop s (Event.recv RawMsg.badTick :: evs) =
      ({ s with total := s.total + 1 }, LoopExit.connError) ∧
    ((runLoop initState xs).2 = LoopExit.connError →
      runSession true xs = SessionOutcome.connFail ∧
      exitCodeOf (runSession true xs) = 1 ∧
      ∀ v e, runSession true xs ≠ SessionOutcome.completed v e) ∧
    ((runLoop initState xs).2 = LoopExit.deadlineHit →
      flattenBuffers (runLoop initState xs).1 ≠ [] →
      runSession true xs = SessionOutcome.completed
        (runVerdict (flattenBuffers (runLoop initState xs).1))
        (fullEvidence (flattenBuffers (runLoop initState xs).1))) := by
  refine ⟨by simp [runLoop], by simp [runLoop], fun hc => ?_, fun hd hne => ?_⟩
  · rcases hr : runLoop initState xs with ⟨s', ex⟩
    rw [hr] at hc
    dsimp only at hc
    subst hc
    have hsess : runSession true xs = SessionOutcome.connFail := by
      simp [runSession, hr]
    exact ⟨hsess, by rw [hsess]; rfl, fun v e => by rw [hsess]; simp⟩
  · rcases hr : runLoop initState xs with ⟨s', ex⟩
    rw [hr] at hd hne
    dsimp only at hd hne
    subst hd
    simp [runSession, hr, List.isEmpty_iff, hne]

/-- C10 witness: a session that captures one tick and then loses the
connection fails with exit code 1; the same capture reaching the deadline
instead proceeds to analysis. -/
theorem generic_connection_error_handler_witness :
    runSession true [Event.recv (RawMsg.tickMsg ⟨"EURUSD", 1, 2, 0, some "YOFX"⟩),
        Event.disconnect] = SessionOutcome.connFail ∧
    exitCodeOf (runSession true [Event.recv (RawMsg.tickMsg
        ⟨"EURUSD", 1, 2, 0, some "YOFX"⟩), Event.disconnect]) = 1 ∧
    runSession true [Event.recv (RawMsg.tickMsg ⟨"EURUSD", 1, 2, 0, some "YOFX"⟩),
        Event.deadline] = SessionOutcome.completed
      (runVerdict (flattenBuffers (runLoop initState
        [Event.recv (RawMsg.tickMsg ⟨"EURUSD", 1, 2, 0, some "YOFX"⟩),
          Event.deadline]).1))
      (fullEvidence (flattenBuffers (runLoop initState
        [Event.recv (RawMsg.tickMsg ⟨"EURUSD", 1, 2, 0, some "YOFX"⟩),
          Event.deadline]).1)) :=
  ⟨((generic_connection_error_handler initState []
      [Event.recv (RawMsg.tickMsg ⟨"EURUSD", 1, 2, 0, some "YOFX"⟩),
        Event.disconnect]).2.2.1 (by decide)).1,
    ((generic_connection_error_handler initState []
      [Event.recv (RawMsg.tickMsg ⟨"EURUSD", 1, 2, 0, some "YOFX"⟩),
        Event.disconnect]).2.2.1 (by decide)).2.1,
    (generic_connection_error_handler initState []
      [Event.recv (RawMsg.tickMsg ⟨"EURUSD", 1, 2, 0, some "YOFX"⟩),
        Event.deadline]).2.2.2 (by decide) (by decide)⟩

/-- C6: the price-pattern analyzer skips symbols with fewer than 3 ticks;
for a qualifying symbol it emits one record decided by the regularity
ratio (distinct rounded bid differences over total differences) with the
strict `< 0.5` threshold; on the constant-step example the ratio is `1/3`
and the single record is supports-simulated. -/
theorem price_pattern_analyzer (ticks : List Tick) (sym : String) :
    analyzePriceEvidence ticks = (symbolsOf ticks).filterMap (priceEvidenceFor ticks) ∧
    ((ticks.filter (fun t => t.symbol = sym)).length < 3 →
      priceEvidenceFor ticks sym = none) ∧
    (3 ≤ (ticks.filter (fun t => t.symbol = sym)).length →
      priceEvidenceFor ticks sym = some
        (if priceRatio ticks sym < 1/2 then Polarity.supportsSimulated
          else Polarity.supportsReal)) ∧
    priceRatio constantStepTicks "EURUSD" = 1/3 ∧
    analyzePriceEvidence constantStepTicks = [Polarity.supportsSimulated] := by
  have hr : round6 (1/10000 : ℚ) = 1/10000 := round6_eq_self _ 100 (by norm_num)
  have hd : diffs (constantStepTicks.map Tick.bid) = [1/10000, 1/10000, 1/10000] := by
    simp [constantStepTicks, diffs]
    norm_num
  have hfil : constantStepTicks.filter (fun t => t.symbol = "EURUSD") = constantStepTicks := by
    simp [constantStepTicks]
  have hratio : priceRatio constantStepTicks "EURUSD" = 1/3 := by
    unfold priceRatio
    simp only [hfil, hd]
    norm_num [hr, List.dedup]
  refine ⟨rfl, fun hlt => ?_, fun hge => ?_, hratio, ?_⟩
  · unfold priceEvidenceFor
    rw [if_pos hlt]
  · have hne : diffs ((ticks.filter (fun t => t.symbol = sym)).map Tick.bid) ≠ [] := by
      intro hcon
      have hl := diffs_length ((ticks.filter (fun t => t.symbol = sym)).map Tick.bid)
      rw [hcon] at hl
      simp only [List.length_nil, List.length_map] at hl
      omega
    unfold priceEvidenceFor priceRatio
    rw [if_neg (by omega)]
    simp [hne]
    split_ifs <;> rfl
  · have hsym : symbolsOf constantStepTicks = ["EURUSD"] := by
      simp [constantStepTicks, symbolsOf]
    have hbody : priceEvidenceFor constantStepTicks "EURUSD" =
        some Polarity.supportsSimulated := by
      unfold priceEvidenceFor
      simp only [hfil, hd]
      norm_num [hr, List.dedup, constantStepTicks]
      intro hcontra
      rw [if_neg (List.cons_ne_nil _ _)] at hcontra
      norm_num at hcontra
    simp [analyzePriceEvidence, hsym, hbody]

/-- C6 witness: the constant-step example has no `GBPUSD` ticks (record
skipped) and four `EURUSD` ticks (record emitted by the threshold rule). -/
theorem price_pattern_analyzer_witness :
    priceEvidenceFor constantStepTicks "GBPUSD" = none ∧
    priceEvidenceFor constantStepTicks "EURUSD" = some
      (if priceRatio constantStepTicks "EURUSD" < 1/2 then Polarity.supportsSimulated
        else Polarity.supportsReal) :=
  ⟨(price_pattern_analyzer constantStepTicks "GBPUSD").2.1 (by decide),
    (price_pattern_analyzer constantStepTicks "EURUSD").2.2.1 (by decide)⟩

/-- C7: the spread-consistency analyzer emits one record per symbol with no
minimum-count guard, supports-simulated exactly when
1 − distinct-spreads/tick-count exceeds 0.95 strictly; ten equal spreads
give consistency 0.9 and supports-real, and a single tick gives
consistency 0 and supports-real. -/
theorem spread_analyzer (ticks : List Tick) (sym : String) (t : Tick) :
    analyzeSpreadEvidence ticks = (symbolsOf ticks).map (spreadEvidenceFor ticks) ∧
    spreadEvidenceFor ticks sym =
      (if spreadConsistency ticks sym > 19/20 then Polarity.supportsSimulated
        else Polarity.supportsReal) ∧
    spreadConsistency [t] t.symbol = 0 ∧
    spreadEvidenceFor [t] t.symbol = Polarity.supportsReal ∧
    spreadConsistency constantSpreadTicks "GBPUSD" = 9/10 ∧
    analyzeSpreadEvidence constantSpreadTicks = [Polarity.supportsReal] := by
  have hchar : ∀ (l : List Tick) (s : String), spreadEvidenceFor l s =
      (if spreadConsistency l s > 19/20 then Polarity.supportsSimulated
        else Polarity.supportsReal) := fun l s => rfl
  have hsingle : spreadConsistency [t] t.symbol = 0 := by
    unfold spreadConsistency
    simp [List.dedup_cons_of_not_mem]
  have hten : spreadConsistency constantSpreadTicks "GBPUSD" = 9/10 := by
    have hr : round6 (5001/5000 - 1 : ℚ) = 1/5000 := by
      rw [show (5001/5000 - 1 : ℚ) = 1/5000 by norm_num]
      exact round6_eq_self _ 200 (by norm_num)
    unfold spreadConsistency
    simp only [constantSpreadTicks]
    norm_num [hr, List.dedup_cons_of_mem, List.dedup_cons_of_not_mem]
  refine ⟨rfl, hchar ticks sym, hsingle, ?_, hten, ?_⟩
  · rw [hchar, hsingle]
    norm_num
  · have hsym : symbolsOf constantSpreadTicks = ["GBPUSD"] := by
      simp [constantSpreadTicks, symbolsOf]
    have hbody : spreadEvidenceFor constantSpreadTicks "GBPUSD" = Polarity.supportsReal := by
      rw [hchar, hten]
      norm_num
    simp [analyzeSpreadEvidence, hsym, hbody]

/-- C8: the timestamp-gap analyzer pools all timestamps across symbols into
an ascending sorted sequence and takes its consecutive gaps; with zero
gaps it emits nothing, otherwise exactly one record, supports-simulated
exactly when the gap regularity ratio is `< 0.3` AND the mean gap is `< 1`;
the pooled gaps [1, 1, 1, 1] (regularity 0.25, mean 1) give supports-real. -/
theorem timestamp_analyzer (ticks : List Tick) :
    ((ticks.map Tick.timestamp).insertionSort (· ≤ ·)).Sorted (· ≤ ·) ∧
    ((ticks.map Tick.timestamp).insertionSort (· ≤ ·)).Perm (ticks.map Tick.timestamp) ∧
    (tsGaps ticks = [] → analyzeTimestampEvidence ticks = []) ∧
    (tsGaps ticks ≠ [] → analyzeTimestampEvidence ticks =
      [if ((tsGaps ticks).dedup.length : ℚ) / ((tsGaps ticks).length : ℚ) < 3/10 ∧
          (tsGaps ticks).sum / ((tsGaps ticks).length : ℚ) < 1
        then Polarity.supportsSimulated else Polarity.supportsReal]) ∧
    tsGaps uniformGapTicks = [1, 1, 1, 1] ∧
    analyzeTimestampEvidence uniformGapTicks = [Polarity.supportsReal] := by
  have hgaps : tsGaps uniformGapTicks = [1, 1, 1, 1] := by
    have hs : ([0, 1, 2, 3, 4] : List ℚ).Sorted (· ≤ ·) := by
      norm_num [List.sorted_cons]
    unfold tsGaps
    rw [show uniformGapTicks.map Tick.timestamp = [0, 1, 2, 3, 4] by
      simp [uniformGapTicks]]
    rw [List.Sorted.insertionSort_eq hs]
    norm_num [diffs]
  refine ⟨List.sorted_insertionSort _ _, List.perm_insertionSort _ _,
    fun h => ?_, fun h => ?_, hgaps, ?_⟩
  · simp [analyzeTimestampEvidence, h]
  · simp only [analyzeTimestampEvidence]
    simp [h]
    split_ifs <;> rfl
  · rw [show analyzeTimestampEvidence uniformGapTicks =
        (if tsGaps uniformGapTicks = [] then []
          else if ((tsGaps uniformGapTicks).dedup.length : ℚ) /
                ((tsGaps uniformGapTicks).length : ℚ) < 3/10 ∧
              (tsGaps uniformGapTicks).sum / ((tsGaps uniformGapTicks).length : ℚ) < 1
            then [Polarity.supportsSimulated] else [Polarity.supportsReal]) from rfl]
    rw [hgaps]
    rw [if_neg (List.cons_ne_nil _ _)]
    rw [if_neg ?_]
    · rintro ⟨-, hmean⟩
      norm_num at hmean


/-- C8 witness: a single tick yields no gaps and no evidence; the five
pooled uniform-gap ticks yield the one threshold-decided record. -/
theorem timestamp_analyzer_witness :
    analyzeTimestampEvidence [(⟨"EURUSD", 1, 2, 0, some "YOFX"⟩ : Tick)] = [] ∧
    analyzeTimestampEvidence uniformGapTicks =
      [if ((tsGaps uniformGapTicks).dedup.length : ℚ) /
            ((tsGaps uniformGapTicks).length : ℚ) < 3/10 ∧
          (tsGaps uniformGapTicks).sum / ((tsGaps uniformGapTicks).length : ℚ) < 1
        then Polarity.supportsSimulated else Polarity.supportsReal] :=
  ⟨(timestamp_analyzer [(⟨"EURUSD", 1, 2, 0, some "YOFX"⟩ : Tick)]).2.2.1
      (by simp [tsGaps, diffs, List.insertionSort, List.orderedInsert]),
    (timestamp_analyzer uniformGapTicks).2.2.2.1
      (by
        intro hcon
        have hl := tsGaps_length uniformGapTicks
        rw [hcon] at hl
        simp [uniformGapTicks] at hl)⟩

/-- C2 witness: rule 2 fires on a `YOFX` label with a real-indicator
majority, and a tie without the marker labels falls through to
`Inconclusive`. -/
theorem generate_verdict_decision_table_witness :
    generateVerdict ["YOFX"] [Polarity.supportsReal] = Verdict.real ∧
    generateVerdict ["FOO"]
      [Polarity.supportsSimulated, Polarity.supportsReal] = Verdict.inconclusive :=
  ⟨(generate_verdict_decision_table ["YOFX"] [Polarity.supportsReal]).2.1
      (by decide) (by decide) (by decide),
    (generate_verdict_decision_table ["FOO"]
      [Polarity.supportsSimulated, Polarity.supportsReal]).2.2.2.2 (by decide) (by decide)⟩
